import Mathlib

/-!
# Vitals.h and PostData.h: ownership discipline of the sample window

Shallow embedding of `Sketches/data_collection_networking/Vitals.h` (the
constructor, destructor, copy constructor and copy assignment of `struct Vitals`)
over an explicit block heap, and of the record declarations of
`Sketches/data_collection_networking/PostData.h`.

Modelling conventions.

* The free store is a list of blocks. A block identifier is never reused, so a
  pointer to a released block stays recognisably dangling.
* A `float` is carried as its 32-bit object representation. The source performs
  no floating-point arithmetic: it only stores `0` and copies values, so equality
  below is equality of representations.
* `new float[WINDOW_SIZE]` either yields a fresh block or throws
  `std::bad_alloc`; which of the two happens is an input (`grant`). Without the
  trailing `()` the fresh block holds indeterminate values, also an input
  (`junk`).
* Undefined behaviour (releasing a block twice, `memcpy` from or to storage that
  is not live, running the destructor of an object whose lifetime has ended) is
  an explicit outcome.
* The lifetime of an object ends when its destructor has run. Its members cannot
  be read afterwards, so the outcome of the destructor carries no member values:
  the store `irBuffer = nullptr` of line 27 has no observable effect.
-/

namespace Eon

/-! ## Constants of `Vitals.h` -/

/-- Line 3: `#define WINDOW_SIZE 1024`. -/
def WINDOW_SIZE : Nat := 1024

/-- Line 4: `#define SAMPLING_RATE 125`. -/
def SAMPLING_RATE : Nat := 125

/-! ## The free store -/

/-- Object representation of one `float`. -/
abbrev F32 := Nat

/-- A `float*`: `none` is `nullptr`, `some b` points at the first element of block `b`. -/
abbrev Ptr := Option Nat

/-- The free store: block `b` is `blocks[b]`; `some xs` is a live array with
elements `xs`, `none` is an array that has been released. -/
structure Heap where
  blocks : List (Option (List F32))

/-- The array a pointer designates, when it designates a live one. -/
def Heap.lookup (h : Heap) : Ptr → Option (List F32)
  | none => none
  | some b =>
    match h.blocks[b]? with
    | some (some xs) => some xs
    | _ => none

/-- Reading `p[i]`. -/
def Heap.read (h : Heap) (p : Ptr) (i : Nat) : Option F32 :=
  match h.lookup p with
  | some xs => xs[i]?
  | none => none

/-- The assignment `p[i] = v`; `none` when `p` is not live or `i` is out of range. -/
def Heap.write (h : Heap) (p : Ptr) (i : Nat) (v : F32) : Option Heap :=
  match p with
  | none => none
  | some b =>
    match h.lookup (some b) with
    | some xs => if i < xs.length then some ⟨h.blocks.set b (some (xs.set i v))⟩ else none
    | none => none

/-- The expression `new float[n]` with initial contents `xs`: a fresh block when
the request is granted, `none` when `std::bad_alloc` is thrown. -/
def Heap.new (h : Heap) (grant : Bool) (xs : List F32) : Option (Heap × Nat) :=
  if grant then some (⟨h.blocks ++ [some xs]⟩, h.blocks.length) else none

/-- The statement `delete[] p` for non-null `p`: `none` (undefined behaviour) when
block `b` is not live. -/
def Heap.delete (h : Heap) (b : Nat) : Option Heap :=
  match h.lookup (some b) with
  | some _ => some ⟨h.blocks.set b none⟩
  | none => none

/-- The call `memcpy(dst, src, n * sizeof(float))`: `none` (undefined behaviour)
unless both pointers designate distinct live arrays of at least `n` elements. -/
def Heap.memcpy (h : Heap) (dst src : Ptr) (n : Nat) : Option Heap :=
  match dst with
  | none => none
  | some d =>
    match h.lookup (some d), h.lookup src with
    | some dv, some sv =>
      if n ≤ dv.length ∧ n ≤ sv.length ∧ some d ≠ src then
        some ⟨h.blocks.set d (some (sv.take n ++ dv.drop n))⟩
      else none
    | _, _ => none

/-- Number of arrays currently live. -/
def Heap.liveCount (h : Heap) : Nat := h.blocks.countP Option.isSome

/-- Number of arrays released so far. -/
def Heap.releasedCount (h : Heap) : Nat := h.blocks.countP Option.isNone

/-- Number of arrays ever allocated. -/
def Heap.allocCount (h : Heap) : Nat := h.blocks.length

/-! ## `struct Vitals` -/

/-- Lines 6-16: the data members of `struct Vitals`. -/
structure Vitals where
  irValue : Int
  bpm : F32
  avgBpm : F32
  isValid : Bool
  irBuffer : Ptr
  bufferIndex : Int
  bufferFull : Bool
  lastSampleTime : Nat

/-- Lines 7-16: the default member initialisers. -/
def Vitals.defaults : Vitals :=
  { irValue := 0, bpm := 0, avgBpm := 0, isValid := false, irBuffer := none,
    bufferIndex := 0, bufferFull := false, lastSampleTime := 0 }

/-- How a member function ends: normally with `s`, by `std::bad_alloc` leaving
state `e` behind, or in undefined behaviour. -/
inductive Run (ε σ : Type) where
  | done (s : σ)
  | thrown (e : ε)
  | undefined

/-- The indeterminate contents of `new float[WINDOW_SIZE]`. -/
def junkBlock (junk : Nat → F32) : List F32 := (List.range WINDOW_SIZE).map junk

/-- Lines 19-21: `Vitals()`. When `new` throws no object comes to exist. -/
def Vitals.ctor (h : Heap) (grant : Bool) : Run Heap (Heap × Vitals) :=
  match h.new grant (List.replicate WINDOW_SIZE 0) with
  | none => .thrown h
  | some (h1, b) => .done (h1, { Vitals.defaults with irBuffer := some b })

/-- The storage of a `Vitals` object: within its lifetime, holding member
values, or after its destructor has run. -/
inductive Storage where
  | alive (self : Vitals)
  | ended

/-- Lines 24-29: `~Vitals()`. The guarded `delete[]` of lines 25-26 acts on the
free store; the store to `irBuffer` of line 27 is to a member of an object whose
lifetime ends with this very call, so nothing of it remains in the outcome.
`none` is undefined behaviour: `delete[]` of an array that is not live, or a
destructor run on an object whose lifetime has already ended. -/
def Vitals.dtor (h : Heap) : Storage → Option (Heap × Storage)
  | .ended => none
  | .alive self =>
    match self.irBuffer with
    | some b =>
      match h.delete b with
      | some h1 => some (h1, .ended)
      | none => none
    | none => some (h, .ended)

/-- Lines 32-43: `Vitals(const Vitals& other)`. -/
def Vitals.copyCtor (h : Heap) (grant : Bool) (junk : Nat → F32) (other : Vitals) :
    Run Heap (Heap × Vitals) :=
  let self : Vitals :=
    { Vitals.defaults with
      irValue := other.irValue, bpm := other.bpm, avgBpm := other.avgBpm,
      isValid := other.isValid, bufferIndex := other.bufferIndex,
      bufferFull := other.bufferFull, lastSampleTime := other.lastSampleTime }
  match h.new grant (junkBlock junk) with
  | none => .thrown h
  | some (h1, b) =>
    let self : Vitals := { self with irBuffer := some b }
    match h1.memcpy self.irBuffer other.irBuffer WINDOW_SIZE with
    | some h2 => .done (h2, self)
    | none => .undefined

/-- Lines 48-60: the guarded block of `operator=`, run when `this != &other`.
When `new` throws, `irBuffer` has not been reassigned. -/
def Vitals.assignFrom (h : Heap) (grant : Bool) (junk : Nat → F32) (self other : Vitals) :
    Run (Heap × Vitals) (Heap × Vitals) :=
  let self : Vitals :=
    { self with
      irValue := other.irValue, bpm := other.bpm, avgBpm := other.avgBpm,
      isValid := other.isValid, bufferIndex := other.bufferIndex,
      bufferFull := other.bufferFull, lastSampleTime := other.lastSampleTime }
  let released : Option Heap :=
    match self.irBuffer with
    | some b => h.delete b
    | none => some h
  match released with
  | none => .undefined
  | some h1 =>
    match h1.new grant (junkBlock junk) with
    | none => .thrown (h1, self)
    | some (h2, b) =>
      let self : Vitals := { self with irBuffer := some b }
      match h2.memcpy self.irBuffer other.irBuffer WINDOW_SIZE with
      | some h3 => .done (h3, self)
      | none => .undefined

/-! ## Objects with identity -/

/-- A program state: the free store and the `Vitals` objects in existence; the
object at address `k` is `objs[k]`. -/
structure World where
  heap : Heap
  objs : List Vitals

/-- No object, no array. -/
def World.empty : World := ⟨⟨[]⟩, []⟩

/-- The declaration `Vitals x;`: the result carries the address of `x`. -/
def World.construct (w : World) (grant : Bool) : Run World (World × Nat) :=
  match Vitals.ctor w.heap grant with
  | .done (h, s) => .done (⟨h, w.objs ++ [s]⟩, w.objs.length)
  | .thrown h => .thrown ⟨h, w.objs⟩
  | .undefined => .undefined

/-- The declaration `Vitals x(other);`: the result carries the address of `x`. -/
def World.copyConstruct (w : World) (grant : Bool) (junk : Nat → F32) (other : Nat) :
    Run World (World × Nat) :=
  match w.objs[other]? with
  | none => .undefined
  | some o =>
    match Vitals.copyCtor w.heap grant junk o with
    | .done (h, s) => .done (⟨h, w.objs ++ [s]⟩, w.objs.length)
    | .thrown h => .thrown ⟨h, w.objs⟩
    | .undefined => .undefined

/-- Lines 46-63: `this->operator=(other)` on the objects at addresses `this` and
`other`; the result carries the address the returned reference designates. -/
def World.assign (w : World) (grant : Bool) (junk : Nat → F32) (this other : Nat) :
    Run World (World × Nat) :=
  match w.objs[this]?, w.objs[other]? with
  | some self, some o =>
    if this ≠ other then
      match Vitals.assignFrom w.heap grant junk self o with
      | .done (h, s) => .done (⟨h, w.objs.set this s⟩, this)
      | .thrown (h, s) => .thrown ⟨h, w.objs.set this s⟩
      | .undefined => .undefined
    else .done (w, this)
  | _, _ => .undefined

/-- One statement of a client program. -/
inductive Op where
  | construct (grant : Bool)
  | copyConstruct (grant : Bool) (junk : Nat → F32) (other : Nat)
  | assign (grant : Bool) (junk : Nat → F32) (this other : Nat)

/-- Running one statement. -/
def World.step (w : World) : Op → Run World World
  | .construct g =>
    match w.construct g with
    | .done (w1, _) => .done w1
    | .thrown e => .thrown e
    | .undefined => .undefined
  | .copyConstruct g junk other =>
    match w.copyConstruct g junk other with
    | .done (w1, _) => .done w1
    | .thrown e => .thrown e
    | .undefined => .undefined
  | .assign g junk this other =>
    match w.assign g junk this other with
    | .done (w1, _) => .done w1
    | .thrown e => .thrown e
    | .undefined => .undefined

/-- Running a sequence of statements, stopping at the first that does not end normally. -/
def World.run (w : World) : List Op → Run World World
  | [] => .done w
  | op :: ops =>
    match w.step op with
    | .done w1 => w1.run ops
    | .thrown e => .thrown e
    | .undefined => .undefined

/-- Static check of a statement sequence against `n` existing objects: every
operand names an object declared earlier and every allocation request is granted. -/
def Op.admissible : Nat → List Op → Bool
  | _, [] => true
  | n, .construct g :: ops => g && Op.admissible (n + 1) ops
  | n, .copyConstruct g _ other :: ops => g && decide (other < n) && Op.admissible (n + 1) ops
  | n, .assign g _ this other :: ops =>
    g && decide (this < n) && decide (other < n) && Op.admissible n ops

/-! ## `PostData.h` -/

/-- The member types that a record declaration of `PostData.h` can mention. -/
inductive CType where
  | int
  | charArray (size : Nat)
  | record (tag : String)
  | pointer (target : CType)
  deriving DecidableEq, Repr

/-- One data member of a record declaration. -/
structure Member where
  name : String
  type : CType
  deriving DecidableEq, Repr

/-- Lines 3-8: `struct HeartRateReading`. -/
def HeartRateReading : List Member :=
  [⟨"timestamp", .charArray 25⟩, ⟨"bpm", .int⟩, ⟨"source", .charArray 20⟩,
    ⟨"context", .charArray 20⟩]

/-- Lines 11-16: `struct DeviceInfo`. -/
def DeviceInfo : List Member :=
  [⟨"device_id", .charArray 50⟩, ⟨"device_name", .charArray 50⟩,
    ⟨"device_model", .charArray 50⟩, ⟨"os_version", .charArray 20⟩]

/-- Lines 19-22: `struct PostData`. -/
def PostData : List Member :=
  [⟨"device_info", .record "DeviceInfo"⟩, ⟨"heart_rate", .record "HeartRateReading"⟩]

/-- The declared type of the member called `name`. -/
def memberType (fields : List Member) (name : String) : Option CType :=
  (fields.find? (fun m => m.name == name)).map (fun m => m.type)

/-- The longest null-terminated string a member can hold: the declared size of a
`char` array less the terminator. -/
def CType.capacity : CType → Option Nat
  | .charArray size => some (size - 1)
  | _ => none

/-- The usable capacity of the string member called `name`. -/
def usableChars (fields : List Member) (name : String) : Option Nat :=
  (memberType fields name).bind CType.capacity

/-- How many members of a record are held by value with record type `tag`. -/
def containedByValue (fields : List Member) (tag : String) : Nat :=
  fields.countP (fun m => m.type == CType.record tag)

/-! ## Invariants and sample states -/

/-- The state invariant of one instance: `irBuffer` designates a live array of
exactly `WINDOW_SIZE` elements and `bufferIndex` lies in `[0, WINDOW_SIZE)`. -/
def Vitals.Valid (h : Heap) (s : Vitals) : Prop :=
  (∃ xs, h.lookup s.irBuffer = some xs ∧ xs.length = WINDOW_SIZE) ∧
    0 ≤ s.bufferIndex ∧ s.bufferIndex < WINDOW_SIZE

/-- The ownership discipline of a program state: every object holds a live array
of `WINDOW_SIZE` elements, no two objects hold the same array, there are as many
live arrays as objects, every `bufferIndex` lies in `[0, WINDOW_SIZE)`, and every
live array is held by some object. -/
structure World.Inv (w : World) : Prop where
  live : ∀ (k : Nat) (s : Vitals), w.objs[k]? = some s →
    ∃ xs, w.heap.lookup s.irBuffer = some xs ∧ xs.length = WINDOW_SIZE
  inj : ∀ (j k : Nat) (s t : Vitals), w.objs[j]? = some s → w.objs[k]? = some t →
    s.irBuffer = t.irBuffer → j = k
  count : w.heap.liveCount = w.objs.length
  index : ∀ (k : Nat) (s : Vitals), w.objs[k]? = some s →
    0 ≤ s.bufferIndex ∧ s.bufferIndex < WINDOW_SIZE
  owned : ∀ (b : Nat) (xs : List F32), w.heap.lookup (some b) = some xs →
    ∃ (k : Nat) (s : Vitals), w.objs[k]? = some s ∧ s.irBuffer = some b

/-- A store with one array holding the distinct values `0, 1, ..., 1023`. -/
def rampHeap : Heap := ⟨[some (List.range WINDOW_SIZE)]⟩

/-- An instance owning the array of `rampHeap`. -/
def rampVitals : Vitals :=
  { irValue := 51234, bpm := 72, avgBpm := 71, isValid := true, irBuffer := some 0,
    bufferIndex := 5, bufferFull := true, lastSampleTime := 8192 }

/-- The state after `Vitals A; Vitals B;`. -/
def twoWindows : World :=
  ⟨⟨[some (List.replicate WINDOW_SIZE 0), some (List.replicate WINDOW_SIZE 0)]⟩,
    [{ Vitals.defaults with irBuffer := some 0 }, { Vitals.defaults with irBuffer := some 1 }]⟩

/-- The statements `Vitals A; Vitals B; Vitals C; A = B; A = C;` with every
allocation granted. -/
def repeatedAssignment : List Op :=
  [.construct true, .construct true, .construct true,
    .assign true (fun _ => 99) 0 1, .assign true (fun _ => 99) 0 2]

/-! ## Facts about the free store -/

theorem Heap.lookup_some_iff (h : Heap) (b : Nat) (xs : List F32) :
    h.lookup (some b) = some xs ↔ h.blocks[b]? = some (some xs) := by
  simp only [Heap.lookup]
  cases h.blocks[b]? with
  | none => simp
  | some o =>
    cases o with
    | none => simp
    | some ys => simp

theorem Heap.lookup_lt (h : Heap) (b : Nat) (xs : List F32)
    (hx : h.lookup (some b) = some xs) : b < h.blocks.length := by
  rw [Heap.lookup_some_iff] at hx
  exact (List.getElem?_eq_some.mp hx).1

theorem Heap.lookup_fresh (h : Heap) : h.lookup (some h.blocks.length) = none := by
  simp [Heap.lookup]

theorem Heap.lookup_push_self (h : Heap) (xs : List F32) :
    (Heap.mk (h.blocks ++ [some xs])).lookup (some h.blocks.length) = some xs := by
  simp [Heap.lookup]

theorem Heap.lookup_push_of_lt (h : Heap) (x : Option (List F32)) (b : Nat)
    (hb : b < h.blocks.length) :
    (Heap.mk (h.blocks ++ [x])).lookup (some b) = h.lookup (some b) := by
  simp [Heap.lookup, List.getElem?_append_left hb]

theorem Heap.lookup_push_of_live (h : Heap) (x : Option (List F32)) (p : Ptr)
    (xs : List F32) (hp : h.lookup p = some xs) :
    (Heap.mk (h.blocks ++ [x])).lookup p = some xs := by
  cases p with
  | none => simp [Heap.lookup] at hp
  | some b => rw [Heap.lookup_push_of_lt h x b (Heap.lookup_lt h b xs hp), hp]

theorem Heap.lookup_set_self (h : Heap) (b : Nat) (x : List F32)
    (hb : b < h.blocks.length) :
    (Heap.mk (h.blocks.set b (some x))).lookup (some b) = some x := by
  rw [Heap.lookup_some_iff]
  simp [hb]

theorem Heap.lookup_set_none (h : Heap) (b : Nat) :
    (Heap.mk (h.blocks.set b none)).lookup (some b) = none := by
  simp only [Heap.lookup]
  by_cases hb : b < h.blocks.length
  · simp [hb]
  · rw [List.getElem?_eq_none (by simpa using hb)]

theorem Heap.lookup_set_of_ne (h : Heap) (b : Nat) (x : Option (List F32)) (p : Ptr)
    (hp : p ≠ some b) :
    (Heap.mk (h.blocks.set b x)).lookup p = h.lookup p := by
  cases p with
  | none => rfl
  | some c =>
    have hc : b ≠ c := fun e => hp (by rw [e])
    simp [Heap.lookup, List.getElem?_set_ne hc]

theorem junkBlock_length (junk : Nat → F32) : (junkBlock junk).length = WINDOW_SIZE := by
  simp [junkBlock]

theorem Heap.ne_fresh_of_live (g : Heap) (p : Ptr) (xs : List F32)
    (hp : g.lookup p = some xs) : some g.blocks.length ≠ p := by
  intro e
  rw [← e, Heap.lookup_fresh] at hp
  exact Option.noConfusion hp

/-- Copying a live array of `WINDOW_SIZE` elements into a freshly allocated one
turns the fresh block into an exact duplicate and touches nothing else. -/
theorem Heap.memcpy_into_fresh (g : Heap) (src : Ptr) (xs : List F32) (junk : Nat → F32)
    (hp : g.lookup src = some xs) (hlen : xs.length = WINDOW_SIZE) :
    (Heap.mk (g.blocks ++ [some (junkBlock junk)])).memcpy (some g.blocks.length) src
      WINDOW_SIZE = some ⟨g.blocks ++ [some xs]⟩ := by
  have hne : some g.blocks.length ≠ src := Heap.ne_fresh_of_live g src xs hp
  simp only [Heap.memcpy]
  rw [Heap.lookup_push_self, Heap.lookup_push_of_live g _ src xs hp]
  simp only [junkBlock_length, hlen, le_refl, true_and, ne_eq, hne, not_false_eq_true,
    if_true]
  have h1 : xs.take WINDOW_SIZE = xs := by rw [← hlen]; exact List.take_length xs
  have h2 : (junkBlock junk).drop WINDOW_SIZE = [] := by
    rw [← junkBlock_length junk]; exact List.drop_length _
  rw [h1, h2]
  simp

theorem Vitals.copyCtor_done (h : Heap) (junk : Nat → F32) (other : Vitals) (xs : List F32)
    (hp : h.lookup other.irBuffer = some xs) (hlen : xs.length = WINDOW_SIZE) :
    Vitals.copyCtor h true junk other =
      .done (⟨h.blocks ++ [some xs]⟩, { other with irBuffer := some h.blocks.length }) := by
  simp only [Vitals.copyCtor, Heap.new, if_true]
  rw [Heap.memcpy_into_fresh h other.irBuffer xs junk hp hlen]

theorem Vitals.copyCtor_thrown (h : Heap) (junk : Nat → F32) (other : Vitals) :
    Vitals.copyCtor h false junk other = .thrown h := by
  simp [Vitals.copyCtor, Heap.new]

theorem Vitals.ctor_done (h : Heap) :
    Vitals.ctor h true =
      .done (⟨h.blocks ++ [some (List.replicate WINDOW_SIZE 0)]⟩,
        { Vitals.defaults with irBuffer := some h.blocks.length }) := by
  simp [Vitals.ctor, Heap.new]

theorem Heap.delete_live (h : Heap) (b : Nat) (ys : List F32)
    (hb : h.lookup (some b) = some ys) : h.delete b = some ⟨h.blocks.set b none⟩ := by
  simp [Heap.delete, hb]

theorem Heap.delete_dead (h : Heap) (b : Nat)
    (hb : h.lookup (some b) = none) : h.delete b = none := by
  simp [Heap.delete, hb]

/-- The guarded block of `operator=` when the target holds a live array other
than the source's and the allocation is granted. -/
theorem Vitals.assignFrom_done (h : Heap) (junk : Nat → F32) (self other : Vitals)
    (a : Nat) (ys xs : List F32)
    (ha : self.irBuffer = some a) (hya : h.lookup (some a) = some ys)
    (hp : h.lookup other.irBuffer = some xs) (hlen : xs.length = WINDOW_SIZE)
    (hne : other.irBuffer ≠ some a) :
    Vitals.assignFrom h true junk self other =
      .done (⟨h.blocks.set a none ++ [some xs]⟩,
        { other with irBuffer := some h.blocks.length }) := by
  have hp1 : (Heap.mk (h.blocks.set a none)).lookup other.irBuffer = some xs := by
    rw [Heap.lookup_set_of_ne h a none other.irBuffer hne, hp]
  have hm := Heap.memcpy_into_fresh ⟨h.blocks.set a none⟩ other.irBuffer xs junk hp1 hlen
  simp only [List.length_set] at hm
  simp only [Vitals.assignFrom, ha, Heap.delete_live h a ys hya, Heap.new, if_true,
    List.length_set]
  rw [hm]

/-- The guarded block of `operator=` when the allocation is refused: the old
array is gone and `irBuffer` still holds its address. -/
theorem Vitals.assignFrom_thrown (h : Heap) (junk : Nat → F32) (self other : Vitals)
    (a : Nat) (ys : List F32)
    (ha : self.irBuffer = some a) (hya : h.lookup (some a) = some ys) :
    Vitals.assignFrom h false junk self other =
      .thrown (⟨h.blocks.set a none⟩, { other with irBuffer := some a }) := by
  simp [Vitals.assignFrom, ha, Heap.delete_live h a ys hya, Heap.new]

theorem countP_isSome_release (l : List (Option (List F32))) (b : Nat) (xs : List F32)
    (hb : l[b]? = some (some xs)) :
    (l.set b none).countP Option.isSome + 1 = l.countP Option.isSome := by
  induction l generalizing b with
  | nil => simp at hb
  | cons x l ih =>
    cases b with
    | zero =>
      have hx : x = some xs := by simpa using hb
      subst hx
      simp
    | succ b =>
      have hb1 : l[b]? = some (some xs) := by simpa using hb
      have := ih b hb1
      simp only [List.set_cons_succ, List.countP_cons]
      omega

theorem countP_isNone_release (l : List (Option (List F32))) (b : Nat) (xs : List F32)
    (hb : l[b]? = some (some xs)) :
    (l.set b none).countP Option.isNone = l.countP Option.isNone + 1 := by
  induction l generalizing b with
  | nil => simp at hb
  | cons x l ih =>
    cases b with
    | zero =>
      have hx : x = some xs := by simpa using hb
      subst hx
      simp
    | succ b =>
      have hb1 : l[b]? = some (some xs) := by simpa using hb
      have := ih b hb1
      simp only [List.set_cons_succ, List.countP_cons]
      omega

theorem Heap.liveCount_release (h : Heap) (b : Nat) (xs : List F32)
    (hb : h.lookup (some b) = some xs) :
    (Heap.mk (h.blocks.set b none)).liveCount + 1 = h.liveCount :=
  countP_isSome_release h.blocks b xs ((Heap.lookup_some_iff h b xs).mp hb)

theorem Heap.releasedCount_release (h : Heap) (b : Nat) (xs : List F32)
    (hb : h.lookup (some b) = some xs) :
    (Heap.mk (h.blocks.set b none)).releasedCount = h.releasedCount + 1 :=
  countP_isNone_release h.blocks b xs ((Heap.lookup_some_iff h b xs).mp hb)

theorem Heap.liveCount_push (h : Heap) (xs : List F32) :
    (Heap.mk (h.blocks ++ [some xs])).liveCount = h.liveCount + 1 := by
  simp [Heap.liveCount]

theorem Heap.write_live (h : Heap) (b i : Nat) (v : F32) (xs : List F32)
    (hb : h.lookup (some b) = some xs) (hi : i < xs.length) :
    h.write (some b) i v = some ⟨h.blocks.set b (some (xs.set i v))⟩ := by
  simp [Heap.write, hb, hi]

theorem Heap.read_of_lookup (h : Heap) (p : Ptr) (xs : List F32) (i : Nat)
    (hp : h.lookup p = some xs) : h.read p i = xs[i]? := by
  simp [Heap.read, hp]

theorem Heap.lookup_release_push_self (h : Heap) (a : Nat) (xs : List F32) :
    (Heap.mk (h.blocks.set a none ++ [some xs])).lookup (some h.blocks.length) = some xs := by
  have := Heap.lookup_push_self ⟨h.blocks.set a none⟩ xs
  simpa using this

theorem Heap.lookup_release_push_old (h : Heap) (a : Nat) (xs : List F32)
    (ha : a < h.blocks.length) :
    (Heap.mk (h.blocks.set a none ++ [some xs])).lookup (some a) = none := by
  rw [Heap.lookup_push_of_lt ⟨h.blocks.set a none⟩ _ a (by simpa using ha)]
  exact Heap.lookup_set_none h a

theorem Heap.lookup_release_push_other (h : Heap) (a : Nat) (xs : List F32) (p : Ptr)
    (zs : List F32) (hp : h.lookup p = some zs) (hne : p ≠ some a) :
    (Heap.mk (h.blocks.set a none ++ [some xs])).lookup p = some zs := by
  apply Heap.lookup_push_of_live ⟨h.blocks.set a none⟩
  rw [Heap.lookup_set_of_ne h a none p hne, hp]

theorem World.assign_self (w : World) (grant : Bool) (junk : Nat → F32) (a : Nat)
    (ha : a < w.objs.length) : World.assign w grant junk a a = .done (w, a) := by
  simp [World.assign, List.getElem?_eq_getElem ha]

theorem World.assign_done (w : World) (junk : Nat → F32) (a b : Nat) (A B : Vitals)
    (pa : Nat) (ys xs : List F32)
    (hA : w.objs[a]? = some A) (hB : w.objs[b]? = some B) (hab : a ≠ b)
    (hpa : A.irBuffer = some pa) (hya : w.heap.lookup (some pa) = some ys)
    (hxb : w.heap.lookup B.irBuffer = some xs) (hlen : xs.length = WINDOW_SIZE)
    (hown : B.irBuffer ≠ some pa) :
    World.assign w true junk a b =
      .done (⟨⟨w.heap.blocks.set pa none ++ [some xs]⟩,
        w.objs.set a { B with irBuffer := some w.heap.blocks.length }⟩, a) := by
  simp only [World.assign, hA, hB, ne_eq, hab, not_false_eq_true, if_true,
    Vitals.assignFrom_done w.heap junk A B pa ys xs hpa hya hxb hlen hown]

/-! ## Preservation of the ownership discipline -/

theorem getElem?_push_cases (l : List Vitals) (s t : Vitals) (k : Nat)
    (hk : (l ++ [s])[k]? = some t) : l[k]? = some t ∨ (k = l.length ∧ t = s) := by
  by_cases hlt : k < l.length
  · left
    rw [List.getElem?_append_left hlt] at hk
    exact hk
  · right
    have hge : l.length ≤ k := Nat.le_of_not_lt hlt
    rw [List.getElem?_append_right hge] at hk
    have hk0 : k - l.length = 0 := by
      by_contra hne
      have : 1 ≤ k - l.length := Nat.one_le_iff_ne_zero.mpr hne
      rw [List.getElem?_eq_none (by simpa using this)] at hk
      exact Option.noConfusion hk
    rw [hk0] at hk
    refine ⟨by omega, ?_⟩
    simpa using hk.symm

theorem getElem?_set_cases (l : List Vitals) (s t : Vitals) (a k : Nat)
    (hk : (l.set a s)[k]? = some t) : (k = a ∧ t = s) ∨ (k ≠ a ∧ l[k]? = some t) := by
  by_cases hka : k = a
  · left
    subst hka
    have hlt : k < (l.set k s).length := (List.getElem?_eq_some.mp hk).1
    rw [List.length_set] at hlt
    rw [List.getElem?_set_self hlt] at hk
    exact ⟨rfl, by simpa using hk.symm⟩
  · right
    rw [List.getElem?_set_ne (fun e => hka e.symm)] at hk
    exact ⟨hka, hk⟩

theorem Heap.lookup_push_cases (h : Heap) (x : Option (List F32)) (b : Nat)
    (xs : List F32) (hb : (Heap.mk (h.blocks ++ [x])).lookup (some b) = some xs) :
    h.lookup (some b) = some xs ∨ b = h.blocks.length := by
  by_cases hlt : b < h.blocks.length
  · left
    rw [Heap.lookup_push_of_lt h x b hlt] at hb
    exact hb
  · right
    have hlt2 := Heap.lookup_lt _ _ _ hb
    simp only [List.length_append, List.length_singleton] at hlt2
    omega

theorem World.Inv.empty : World.empty.Inv where
  live := by intro k s hk; simp [World.empty] at hk
  inj := by intro j k s t hj; simp [World.empty] at hj
  count := rfl
  index := by intro k s hk; simp [World.empty] at hk
  owned := by intro b xs hb; simp [World.empty, Heap.lookup] at hb

/-- Adding an object that holds a freshly allocated array keeps the discipline. -/
theorem World.Inv.push (w : World) (hw : w.Inv) (s : Vitals) (xs : List F32)
    (hs : s.irBuffer = some w.heap.blocks.length) (hlen : xs.length = WINDOW_SIZE)
    (hidx : 0 ≤ s.bufferIndex ∧ s.bufferIndex < WINDOW_SIZE) :
    World.Inv ⟨⟨w.heap.blocks ++ [some xs]⟩, w.objs ++ [s]⟩ where
  live := by
    intro k t hk
    rcases getElem?_push_cases _ _ _ _ hk with hold | ⟨_, rfl⟩
    · obtain ⟨zs, hz, hzl⟩ := hw.live k t hold
      exact ⟨zs, Heap.lookup_push_of_live _ _ _ zs hz, hzl⟩
    · exact ⟨xs, by rw [hs]; exact Heap.lookup_push_self _ xs, hlen⟩
  inj := by
    intro j k t u hj hk htu
    rcases getElem?_push_cases _ _ _ _ hj with hjo | ⟨hj1, rfl⟩
    · rcases getElem?_push_cases _ _ _ _ hk with hko | ⟨_, rfl⟩
      · exact hw.inj j k t u hjo hko htu
      · obtain ⟨zs, hz, _⟩ := hw.live j t hjo
        rw [htu, hs] at hz
        rw [Heap.lookup_fresh] at hz
        exact Option.noConfusion hz
    · rcases getElem?_push_cases _ _ _ _ hk with hko | ⟨hk1, _⟩
      · obtain ⟨zs, hz, _⟩ := hw.live k u hko
        rw [← htu, hs] at hz
        rw [Heap.lookup_fresh] at hz
        exact Option.noConfusion hz
      · rw [hj1, hk1]
  count := by
    show (Heap.mk (w.heap.blocks ++ [some xs])).liveCount = (w.objs ++ [s]).length
    rw [Heap.liveCount_push, hw.count]
    simp
  index := by
    intro k t hk
    rcases getElem?_push_cases _ _ _ _ hk with hold | ⟨_, rfl⟩
    · exact hw.index k t hold
    · exact hidx
  owned := by
    intro b zs hb
    rcases Heap.lookup_push_cases _ _ _ _ hb with hold | rfl
    · obtain ⟨k, t, hk, ht⟩ := hw.owned b zs hold
      refine ⟨k, t, ?_, ht⟩
      show (w.objs ++ [s])[k]? = some t
      rw [List.getElem?_append_left (List.getElem?_eq_some.mp hk).1]
      exact hk
    · refine ⟨w.objs.length, s, ?_, hs⟩
      show (w.objs ++ [s])[w.objs.length]? = some s
      simp

/-- Giving an object a freshly allocated array in exchange for the one it held,
which is released, keeps the discipline. -/
theorem World.Inv.reassign (w : World) (hw : w.Inv) (a : Nat) (A s : Vitals) (pa : Nat)
    (xs : List F32) (hA : w.objs[a]? = some A) (hpa : A.irBuffer = some pa)
    (hs : s.irBuffer = some w.heap.blocks.length) (hlen : xs.length = WINDOW_SIZE)
    (hidx : 0 ≤ s.bufferIndex ∧ s.bufferIndex < WINDOW_SIZE) :
    World.Inv ⟨⟨w.heap.blocks.set pa none ++ [some xs]⟩, w.objs.set a s⟩ where
  live := by
    intro k t hk
    rcases getElem?_set_cases _ _ _ _ _ hk with ⟨_, rfl⟩ | ⟨hka, hold⟩
    · exact ⟨xs, by rw [hs]; exact Heap.lookup_release_push_self _ pa xs, hlen⟩
    · obtain ⟨zs, hz, hzl⟩ := hw.live k t hold
      have hne : t.irBuffer ≠ some pa := by
        intro e
        exact hka (hw.inj k a t A hold hA (by rw [e, hpa]))
      exact ⟨zs, Heap.lookup_release_push_other _ pa xs _ zs hz hne, hzl⟩
  inj := by
    intro j k t u hj hk htu
    rcases getElem?_set_cases _ _ _ _ _ hj with ⟨hja, rfl⟩ | ⟨hja, hjo⟩
    · rcases getElem?_set_cases _ _ _ _ _ hk with ⟨hka, _⟩ | ⟨_, hko⟩
      · rw [hja, hka]
      · obtain ⟨zs, hz, _⟩ := hw.live k u hko
        rw [← htu, hs, Heap.lookup_fresh] at hz
        exact Option.noConfusion hz
    · rcases getElem?_set_cases _ _ _ _ _ hk with ⟨_, rfl⟩ | ⟨_, hko⟩
      · obtain ⟨zs, hz, _⟩ := hw.live j t hjo
        rw [htu, hs, Heap.lookup_fresh] at hz
        exact Option.noConfusion hz
      · exact hw.inj j k t u hjo hko htu
  count := by
    show (Heap.mk (w.heap.blocks.set pa none ++ [some xs])).liveCount
      = (w.objs.set a s).length
    obtain ⟨zs, hz, _⟩ := hw.live a A hA
    rw [hpa] at hz
    have h1 := Heap.liveCount_push ⟨w.heap.blocks.set pa none⟩ xs
    have h2 := Heap.liveCount_release w.heap pa zs hz
    rw [h1, h2, hw.count, List.length_set]
  index := by
    intro k t hk
    rcases getElem?_set_cases _ _ _ _ _ hk with ⟨_, rfl⟩ | ⟨_, hold⟩
    · exact hidx
    · exact hw.index k t hold
  owned := by
    intro b zs hb
    have halt : a < w.objs.length := (List.getElem?_eq_some.mp hA).1
    rcases Heap.lookup_push_cases ⟨w.heap.blocks.set pa none⟩ _ _ _ hb with hold | hnew
    · have hbpa : b ≠ pa := by
        intro e
        rw [e, Heap.lookup_set_none] at hold
        exact Option.noConfusion hold
      rw [Heap.lookup_set_of_ne w.heap pa none (some b)
        (fun e => hbpa (Option.some.inj e))] at hold
      obtain ⟨k, t, hk, ht⟩ := hw.owned b zs hold
      have hka : a ≠ k := by
        intro e
        rw [← e, hA] at hk
        have : A = t := Option.some.inj hk
        rw [← this, hpa] at ht
        exact hbpa (Option.some.inj ht).symm
      refine ⟨k, t, ?_, ht⟩
      show (w.objs.set a s)[k]? = some t
      rw [List.getElem?_set_ne hka]
      exact hk
    · refine ⟨a, s, ?_, ?_⟩
      · show (w.objs.set a s)[a]? = some s
        simp [halt]
      · rw [hs, hnew]
        simp

theorem World.construct_done (w : World) :
    w.step (.construct true) =
      .done ⟨⟨w.heap.blocks ++ [some (List.replicate WINDOW_SIZE 0)]⟩,
        w.objs ++ [{ Vitals.defaults with irBuffer := some w.heap.blocks.length }]⟩ := by
  simp [World.step, World.construct, Vitals.ctor_done]

theorem World.copyConstruct_done (w : World) (junk : Nat → F32) (b : Nat) (B : Vitals)
    (xs : List F32) (hB : w.objs[b]? = some B) (hx : w.heap.lookup B.irBuffer = some xs)
    (hlen : xs.length = WINDOW_SIZE) :
    w.step (.copyConstruct true junk b) =
      .done ⟨⟨w.heap.blocks ++ [some xs]⟩,
        w.objs ++ [{ B with irBuffer := some w.heap.blocks.length }]⟩ := by
  simp [World.step, World.copyConstruct, hB, Vitals.copyCtor_done w.heap junk B xs hx hlen]

/-- One admissible statement runs to completion and keeps the ownership discipline. -/
theorem World.step_inv (w : World) (hw : w.Inv) (op : Op) (ops : List Op)
    (hadm : Op.admissible w.objs.length (op :: ops) = true) :
    ∃ w1, w.step op = .done w1 ∧ w1.Inv ∧ Op.admissible w1.objs.length ops = true := by
  cases op with
  | construct g =>
    simp only [Op.admissible, Bool.and_eq_true] at hadm
    obtain ⟨hg, hrest⟩ := hadm
    subst hg
    refine ⟨_, World.construct_done w, ?_, ?_⟩
    · have hidx : (0 : Int) ≤ Vitals.defaults.bufferIndex ∧
          Vitals.defaults.bufferIndex < WINDOW_SIZE := by decide
      exact World.Inv.push w hw _ _ rfl (List.length_replicate _ _) hidx
    · simpa using hrest
  | copyConstruct g junk b =>
    simp only [Op.admissible, Bool.and_eq_true, decide_eq_true_eq] at hadm
    obtain ⟨⟨hg, hb⟩, hrest⟩ := hadm
    subst hg
    have hB : w.objs[b]? = some w.objs[b] := List.getElem?_eq_getElem hb
    obtain ⟨xs, hx, hlen⟩ := hw.live b _ hB
    refine ⟨_, World.copyConstruct_done w junk b _ xs hB hx hlen, ?_, ?_⟩
    · exact World.Inv.push w hw _ xs rfl hlen (hw.index b w.objs[b] hB)
    · simpa using hrest
  | assign g junk a b =>
    simp only [Op.admissible, Bool.and_eq_true, decide_eq_true_eq] at hadm
    obtain ⟨⟨⟨hg, ha⟩, hb⟩, hrest⟩ := hadm
    subst hg
    by_cases hab : a = b
    · subst hab
      refine ⟨w, ?_, hw, hrest⟩
      simp [World.step, World.assign_self w true junk a ha]
    · have hA : w.objs[a]? = some w.objs[a] := List.getElem?_eq_getElem ha
      have hB : w.objs[b]? = some w.objs[b] := List.getElem?_eq_getElem hb
      obtain ⟨ys, hy, _⟩ := hw.live a _ hA
      obtain ⟨xs, hx, hlen⟩ := hw.live b _ hB
      cases hpa : (w.objs[a]).irBuffer with
      | none => rw [hpa] at hy; simp [Heap.lookup] at hy
      | some pa =>
        rw [hpa] at hy
        have hown : (w.objs[b]).irBuffer ≠ some pa := by
          intro e
          exact hab (hw.inj a b _ _ hA hB (by rw [hpa, e]))
        refine ⟨_, ?_, World.Inv.reassign w hw a _
          { w.objs[b] with irBuffer := some w.heap.blocks.length } pa xs hA hpa rfl hlen
          (hw.index b w.objs[b] hB), ?_⟩
        · simp [World.step,
            World.assign_done w junk a b _ _ pa ys xs hA hB hab hpa hy hx hlen hown]
        · simpa using hrest

/-- Every admissible statement sequence runs to completion and keeps the
ownership discipline. -/
theorem World.run_inv (ops : List Op) (w : World) (hw : w.Inv)
    (hadm : Op.admissible w.objs.length ops = true) :
    ∃ w1, w.run ops = .done w1 ∧ w1.Inv := by
  induction ops generalizing w with
  | nil => exact ⟨w, rfl, hw⟩
  | cons op ops ih =>
    obtain ⟨w1, hstep, hw1, hadm1⟩ := World.step_inv w hw op ops hadm
    obtain ⟨w2, hrun, hw2⟩ := ih w1 hw1 hadm1
    exact ⟨w2, by simp [World.run, hstep, hrun], hw2⟩

theorem Vitals.assignFrom_done_null (h : Heap) (junk : Nat → F32) (self other : Vitals)
    (xs : List F32) (ha : self.irBuffer = none)
    (hp : h.lookup other.irBuffer = some xs) (hlen : xs.length = WINDOW_SIZE) :
    Vitals.assignFrom h true junk self other =
      .done (⟨h.blocks ++ [some xs]⟩, { other with irBuffer := some h.blocks.length }) := by
  simp only [Vitals.assignFrom, ha, Heap.new, if_true]
  rw [Heap.memcpy_into_fresh h other.irBuffer xs junk hp hlen]

/-- Whenever the allocation inside `A = B` is refused for distinct objects whose
target holds a live array, the operator ends by `std::bad_alloc` with the target
still pointing at the array it has released. -/
theorem World.assign_thrown (w : World) (junk : Nat → F32) (a b : Nat) (A B : Vitals)
    (pa : Nat) (ys : List F32)
    (hA : w.objs[a]? = some A) (hB : w.objs[b]? = some B) (hab : a ≠ b)
    (hpa : A.irBuffer = some pa) (hya : w.heap.lookup (some pa) = some ys) :
    World.assign w false junk a b =
        .thrown ⟨⟨w.heap.blocks.set pa none⟩, w.objs.set a { B with irBuffer := some pa }⟩ ∧
      (Heap.mk (w.heap.blocks.set pa none)).lookup (some pa) = none := by
  refine ⟨?_, Heap.lookup_set_none w.heap pa⟩
  simp only [World.assign, hA, hB, ne_eq, hab, not_false_eq_true, if_true,
    Vitals.assignFrom_thrown w.heap junk A B pa ys hpa hya]

/-! ## The claims -/

/-- C3: default construction (allocation granted) yields a live buffer of exactly
`WINDOW_SIZE = 1024` elements, every one of them zero, and the scalar members
`irValue = 0`, `bpm = 0`, `avgBpm = 0`, `isValid = false`, `bufferIndex = 0`,
`bufferFull = false`, `lastSampleTime = 0`. -/
theorem default_constructor_zeroed (h : Heap) :
    ∃ h1 s xs, Vitals.ctor h true = .done (h1, s) ∧
      h1.lookup s.irBuffer = some xs ∧ xs.length = WINDOW_SIZE ∧ WINDOW_SIZE = 1024 ∧
      (∀ i, i < WINDOW_SIZE → h1.read s.irBuffer i = some 0) ∧
      s.irValue = 0 ∧ s.bpm = 0 ∧ s.avgBpm = 0 ∧ s.isValid = false ∧
      s.bufferIndex = 0 ∧ s.bufferFull = false ∧ s.lastSampleTime = 0 := by
  refine ⟨_, _, List.replicate WINDOW_SIZE 0, Vitals.ctor_done h, ?_, ?_, rfl, ?_,
    rfl, rfl, rfl, rfl, rfl, rfl, rfl⟩
  · exact Heap.lookup_push_self h _
  · exact List.length_replicate _ _
  · intro i hi
    rw [Heap.read_of_lookup _ _ _ i (Heap.lookup_push_self h _)]
    simp [hi]

/-- C1: copy-constructing `B` from an instance `A` whose buffer is live (allocation
granted) completes, `B.irBuffer[i]` equals `A.irBuffer[i]` for every
`i < WINDOW_SIZE` (and is a defined element), `B` holds a live buffer of
`WINDOW_SIZE` elements, and `B` agrees with `A` on the seven scalar members. -/
theorem copy_constructor_duplicates (h : Heap) (junk : Nat → F32) (A : Vitals)
    (xs : List F32) (hlive : h.lookup A.irBuffer = some xs)
    (hlen : xs.length = WINDOW_SIZE) :
    ∃ h1 B ys, Vitals.copyCtor h true junk A = .done (h1, B) ∧
      h1.lookup B.irBuffer = some ys ∧ ys.length = WINDOW_SIZE ∧
      (∀ i, i < WINDOW_SIZE →
        h1.read B.irBuffer i = h1.read A.irBuffer i ∧
        h1.read A.irBuffer i = h.read A.irBuffer i ∧
        (h1.read B.irBuffer i).isSome = true) ∧
      B.irValue = A.irValue ∧ B.bpm = A.bpm ∧ B.avgBpm = A.avgBpm ∧
      B.isValid = A.isValid ∧ B.bufferIndex = A.bufferIndex ∧
      B.bufferFull = A.bufferFull ∧ B.lastSampleTime = A.lastSampleTime := by
  have hB : (Heap.mk (h.blocks ++ [some xs])).lookup (some h.blocks.length) = some xs :=
    Heap.lookup_push_self h xs
  have hA : (Heap.mk (h.blocks ++ [some xs])).lookup A.irBuffer = some xs :=
    Heap.lookup_push_of_live h _ _ xs hlive
  refine ⟨_, _, xs, Vitals.copyCtor_done h junk A xs hlive hlen, hB, hlen, ?_,
    rfl, rfl, rfl, rfl, rfl, rfl, rfl⟩
  intro i hi
  have hi1 : i < xs.length := by rw [hlen]; exact hi
  rw [Heap.read_of_lookup _ _ _ i hB, Heap.read_of_lookup _ _ _ i hA,
    Heap.read_of_lookup _ _ _ i hlive]
  simp [hi1]

/-- Witness of C1 on the sample window holding the values `0, 1, ..., 1023`. -/
theorem copy_constructor_duplicates_witness :
    rampHeap.lookup rampVitals.irBuffer = some (List.range WINDOW_SIZE) ∧
    (List.range WINDOW_SIZE).length = WINDOW_SIZE ∧
    ∃ h1 B ys, Vitals.copyCtor rampHeap true (fun _ => 99) rampVitals = .done (h1, B) ∧
      h1.lookup B.irBuffer = some ys ∧ ys.length = WINDOW_SIZE ∧
      (∀ i, i < WINDOW_SIZE →
        h1.read B.irBuffer i = h1.read rampVitals.irBuffer i ∧
        h1.read rampVitals.irBuffer i = rampHeap.read rampVitals.irBuffer i ∧
        (h1.read B.irBuffer i).isSome = true) ∧
      B.irValue = rampVitals.irValue ∧ B.bpm = rampVitals.bpm ∧
      B.avgBpm = rampVitals.avgBpm ∧ B.isValid = rampVitals.isValid ∧
      B.bufferIndex = rampVitals.bufferIndex ∧ B.bufferFull = rampVitals.bufferFull ∧
      B.lastSampleTime = rampVitals.lastSampleTime :=
  ⟨rfl, List.length_range _,
    copy_constructor_duplicates rampHeap (fun _ => 99) rampVitals
      (List.range WINDOW_SIZE) rfl (List.length_range _)⟩

/-- C2: no aliasing after copy. When `B` is copy-constructed from an instance `A`
whose buffer is live, `B.irBuffer` is a different pointer from `A.irBuffer`,
designating an array that did not exist before; for every `i < WINDOW_SIZE` and
every value `v`, the write `B.irBuffer[i] = v` succeeds and leaves `A.irBuffer[j]`
unchanged for every `j`, and symmetrically the write `A.irBuffer[i] = v` succeeds
and leaves `B.irBuffer[j]` unchanged for every `j`. -/
theorem copy_constructor_no_aliasing (h : Heap) (junk : Nat → F32) (A : Vitals)
    (xs : List F32) (hlive : h.lookup A.irBuffer = some xs)
    (hlen : xs.length = WINDOW_SIZE) :
    ∃ h1 B, Vitals.copyCtor h true junk A = .done (h1, B) ∧
      B.irBuffer ≠ A.irBuffer ∧ h.lookup B.irBuffer = none ∧
      (h1.lookup B.irBuffer).isSome = true ∧
      ∀ i v, i < WINDOW_SIZE →
        (∃ h2, h1.write B.irBuffer i v = some h2 ∧ h2.read B.irBuffer i = some v ∧
          ∀ j, h2.read A.irBuffer j = h1.read A.irBuffer j) ∧
        (∃ h2, h1.write A.irBuffer i v = some h2 ∧ h2.read A.irBuffer i = some v ∧
          ∀ j, h2.read B.irBuffer j = h1.read B.irBuffer j) := by
  have hB : (Heap.mk (h.blocks ++ [some xs])).lookup (some h.blocks.length) = some xs :=
    Heap.lookup_push_self h xs
  have hA : (Heap.mk (h.blocks ++ [some xs])).lookup A.irBuffer = some xs :=
    Heap.lookup_push_of_live h _ _ xs hlive
  have hne : some h.blocks.length ≠ A.irBuffer := Heap.ne_fresh_of_live h _ xs hlive
  refine ⟨_, _, Vitals.copyCtor_done h junk A xs hlive hlen, hne, Heap.lookup_fresh h,
    by simp only [hB]; rfl, ?_⟩
  intro i v hi
  have hi1 : i < xs.length := by rw [hlen]; exact hi
  constructor
  · refine ⟨_, Heap.write_live _ _ i v xs hB hi1, ?_, ?_⟩
    · rw [Heap.read_of_lookup _ _ (xs.set i v) i
        (Heap.lookup_set_self ⟨h.blocks ++ [some xs]⟩ _ _ (by simp))]
      simp [hi1]
    · intro j
      simp only [Heap.read]
      rw [Heap.lookup_set_of_ne ⟨h.blocks ++ [some xs]⟩ _ _ _ (Ne.symm hne)]
  · cases hp : A.irBuffer with
    | none => rw [hp] at hlive; simp [Heap.lookup] at hlive
    | some a =>
      rw [hp] at hA hne
      refine ⟨_, Heap.write_live _ _ i v xs hA hi1, ?_, ?_⟩
      · rw [Heap.read_of_lookup _ _ (xs.set i v) i
          (Heap.lookup_set_self ⟨h.blocks ++ [some xs]⟩ _ _
            (Heap.lookup_lt _ _ _ hA))]
        simp [hi1]
      · intro j
        simp only [Heap.read]
        rw [Heap.lookup_set_of_ne ⟨h.blocks ++ [some xs]⟩ _ _ _ hne]

/-- Witness of C2 on the sample window holding the values `0, 1, ..., 1023`. -/
theorem copy_constructor_no_aliasing_witness :
    rampHeap.lookup rampVitals.irBuffer = some (List.range WINDOW_SIZE) ∧
    (List.range WINDOW_SIZE).length = WINDOW_SIZE ∧
    ∃ h1 B, Vitals.copyCtor rampHeap true (fun _ => 99) rampVitals = .done (h1, B) ∧
      B.irBuffer ≠ rampVitals.irBuffer ∧ rampHeap.lookup B.irBuffer = none ∧
      (h1.lookup B.irBuffer).isSome = true ∧
      ∀ i v, i < WINDOW_SIZE →
        (∃ h2, h1.write B.irBuffer i v = some h2 ∧ h2.read B.irBuffer i = some v ∧
          ∀ j, h2.read rampVitals.irBuffer j = h1.read rampVitals.irBuffer j) ∧
        (∃ h2, h1.write rampVitals.irBuffer i v = some h2 ∧
          h2.read rampVitals.irBuffer i = some v ∧
          ∀ j, h2.read B.irBuffer j = h1.read B.irBuffer j) :=
  ⟨rfl, List.length_range _,
    copy_constructor_no_aliasing rampHeap (fun _ => 99) rampVitals
      (List.range WINDOW_SIZE) rfl (List.length_range _)⟩

/-- C8, amended: teardown releases the owned buffer exactly once. On an object
whose buffer is live the destructor completes, turns exactly that one array from
live to released, touches no other array and ends the lifetime of the object; on
an object whose `irBuffer` is null it completes, releases nothing and ends the
lifetime of the object. Teardown is not idempotent: once the destructor has run,
running it again on the same object is undefined behaviour. -/
theorem destructor_releases_once (h : Heap) (s : Vitals) :
    (∀ xs, h.lookup s.irBuffer = some xs →
      ∃ h1, Vitals.dtor h (.alive s) = some (h1, .ended) ∧
        h1.lookup s.irBuffer = none ∧
        h1.releasedCount = h.releasedCount + 1 ∧ h1.liveCount + 1 = h.liveCount ∧
        h1.allocCount = h.allocCount ∧
        ∀ p, p ≠ s.irBuffer → h1.lookup p = h.lookup p) ∧
    (s.irBuffer = none → Vitals.dtor h (.alive s) = some (h, .ended)) ∧
    (∀ r, Vitals.dtor h (.alive s) = some r → Vitals.dtor r.1 r.2 = none) := by
  refine ⟨?_, ?_, ?_⟩
  · intro xs hx
    cases hp : s.irBuffer with
    | none => rw [hp] at hx; simp [Heap.lookup] at hx
    | some b =>
      rw [hp] at hx
      refine ⟨⟨h.blocks.set b none⟩, ?_, Heap.lookup_set_none h b,
        Heap.releasedCount_release h b xs hx, Heap.liveCount_release h b xs hx, ?_, ?_⟩
      · simp [Vitals.dtor, hp, Heap.delete_live h b xs hx]
      · simp [Heap.allocCount]
      · intro p hne
        exact Heap.lookup_set_of_ne h b none p hne
  · intro hp
    simp [Vitals.dtor, hp]
  · intro r hr
    have hended : r.2 = Storage.ended := by
      cases hp : s.irBuffer with
      | none =>
        simp only [Vitals.dtor, hp] at hr
        rw [← Option.some.inj hr]
      | some b =>
        cases hb : h.delete b with
        | none => simp [Vitals.dtor, hp, hb] at hr
        | some h1 =>
          simp only [Vitals.dtor, hp, hb] at hr
          rw [← Option.some.inj hr]
    rw [hended]
    rfl

/-- Witness of C8, amended: the destructor on the sample window, on an object
whose `irBuffer` is null, and once more on the destroyed sample window. -/
theorem destructor_releases_once_witness :
    rampHeap.lookup rampVitals.irBuffer = some (List.range WINDOW_SIZE) ∧
    (∃ h1, Vitals.dtor rampHeap (.alive rampVitals) = some (h1, .ended) ∧
        h1.lookup rampVitals.irBuffer = none ∧
        h1.releasedCount = rampHeap.releasedCount + 1 ∧
        h1.liveCount + 1 = rampHeap.liveCount ∧
        h1.allocCount = rampHeap.allocCount ∧
        ∀ p, p ≠ rampVitals.irBuffer → h1.lookup p = rampHeap.lookup p) ∧
    Vitals.defaults.irBuffer = none ∧
    Vitals.dtor rampHeap (.alive Vitals.defaults) = some (rampHeap, .ended) ∧
    Vitals.dtor rampHeap (.alive rampVitals) = some (⟨[none]⟩, .ended) ∧
    Vitals.dtor ⟨[none]⟩ .ended = none :=
  ⟨rfl,
    (destructor_releases_once rampHeap rampVitals).1 (List.range WINDOW_SIZE) rfl,
    rfl,
    (destructor_releases_once rampHeap Vitals.defaults).2.1 rfl,
    rfl,
    (destructor_releases_once rampHeap rampVitals).2.2 (⟨[none]⟩, .ended) rfl⟩

/-- C8 as stated fails: on the sample window the destructor completes, but the
destructor run on its outcome is undefined behaviour, so running it twice is not
the same as running it once; and the outcome holds no `irBuffer` member that
could be read as null. -/
theorem destructor_twice_undefined :
    Vitals.dtor rampHeap (.alive rampVitals) = some (⟨[none]⟩, .ended) ∧
    (Vitals.dtor rampHeap (.alive rampVitals)).bind (fun r => Vitals.dtor r.1 r.2) = none ∧
    (Vitals.dtor rampHeap (.alive rampVitals)).bind (fun r => Vitals.dtor r.1 r.2)
      ≠ Vitals.dtor rampHeap (.alive rampVitals) := by
  refine ⟨rfl, rfl, ?_⟩
  intro e
  have h1 : (Vitals.dtor rampHeap (.alive rampVitals)).bind
      (fun r => Vitals.dtor r.1 r.2) = none := rfl
  have h2 : Vitals.dtor rampHeap (.alive rampVitals) = some (⟨[none]⟩, .ended) := rfl
  rw [h1, h2] at e
  exact Option.noConfusion e

/-- C4: self-assignment is a no-op. For every object, whatever the state of its
buffer and whatever the allocator would answer, `A = A` completes, returns `A`
and leaves the whole program state as it was: every member of `A`, the buffer
pointer, every array of the free store; nothing is released and nothing is
allocated. -/
theorem self_assignment_noop (w : World) (grant : Bool) (junk : Nat → F32) (a : Nat)
    (ha : a < w.objs.length) :
    ∃ w1, World.assign w grant junk a a = .done (w1, a) ∧ w1 = w ∧
      w1.objs[a]? = w.objs[a]? ∧ w1.heap.blocks = w.heap.blocks ∧
      w1.heap.allocCount = w.heap.allocCount ∧
      w1.heap.releasedCount = w.heap.releasedCount :=
  ⟨w, World.assign_self w grant junk a ha, rfl, rfl, rfl, rfl, rfl⟩

/-- Witness of C4: `A = A` in the state after `Vitals A; Vitals B;`. -/
theorem self_assignment_noop_witness :
    0 < twoWindows.objs.length ∧
    ∃ w1, World.assign twoWindows false (fun _ => 99) 0 0 = .done (w1, 0) ∧
      w1 = twoWindows ∧
      w1.objs[0]? = twoWindows.objs[0]? ∧ w1.heap.blocks = twoWindows.heap.blocks ∧
      w1.heap.allocCount = twoWindows.heap.allocCount ∧
      w1.heap.releasedCount = twoWindows.heap.releasedCount :=
  ⟨by decide, self_assignment_noop twoWindows false (fun _ => 99) 0 (by decide)⟩

/-- C5: for two distinct objects `A` and `B`, each holding its own live buffer,
`A = B` with the allocation granted completes and returns `A`; afterwards `A`
holds an array that did not exist before, live and of `WINDOW_SIZE` elements,
with `A.irBuffer[i]` equal to `B.irBuffer[i]` for every `i < WINDOW_SIZE`; `A`
agrees with `B` on the seven scalar members; the array `A` held before is
released; `B` is unchanged. -/
theorem copy_assignment_replaces (w : World) (junk : Nat → F32) (a b : Nat)
    (A B : Vitals) (pa : Nat) (ys xs : List F32)
    (hA : w.objs[a]? = some A) (hB : w.objs[b]? = some B) (hab : a ≠ b)
    (hpa : A.irBuffer = some pa) (hya : w.heap.lookup (some pa) = some ys)
    (hxb : w.heap.lookup B.irBuffer = some xs) (hlen : xs.length = WINDOW_SIZE)
    (hown : B.irBuffer ≠ A.irBuffer) :
    ∃ w1 A1 zs, World.assign w true junk a b = .done (w1, a) ∧
      w1.objs[a]? = some A1 ∧ w1.objs[b]? = some B ∧
      A1.irBuffer = some w.heap.allocCount ∧
      w1.heap.allocCount = w.heap.allocCount + 1 ∧
      w1.heap.lookup A1.irBuffer = some zs ∧ zs.length = WINDOW_SIZE ∧
      (∀ i, i < WINDOW_SIZE →
        w1.heap.read A1.irBuffer i = w1.heap.read B.irBuffer i ∧
        w1.heap.read B.irBuffer i = w.heap.read B.irBuffer i ∧
        (w1.heap.read A1.irBuffer i).isSome = true) ∧
      A1.irValue = B.irValue ∧ A1.bpm = B.bpm ∧ A1.avgBpm = B.avgBpm ∧
      A1.isValid = B.isValid ∧ A1.bufferIndex = B.bufferIndex ∧
      A1.bufferFull = B.bufferFull ∧ A1.lastSampleTime = B.lastSampleTime ∧
      w1.heap.lookup A.irBuffer = none ∧
      w1.heap.releasedCount = w.heap.releasedCount + 1 := by
  have hown1 : B.irBuffer ≠ some pa := by rw [← hpa]; exact hown
  have halt : a < w.objs.length := (List.getElem?_eq_some.mp hA).1
  have hpalt : pa < w.heap.blocks.length := Heap.lookup_lt _ _ _ hya
  have hNew := Heap.lookup_release_push_self w.heap pa xs
  have hSrc := Heap.lookup_release_push_other w.heap pa xs B.irBuffer xs hxb hown1
  refine ⟨_, { B with irBuffer := some w.heap.blocks.length }, xs,
    World.assign_done w junk a b A B pa ys xs hA hB hab hpa hya hxb hlen hown1,
    ?_, ?_, rfl, ?_, hNew, hlen, ?_, rfl, rfl, rfl, rfl, rfl, rfl, rfl, ?_, ?_⟩
  · simp [halt]
  · rw [← hB]
    exact List.getElem?_set_ne hab
  · simp [Heap.allocCount]
  · intro i hi
    have hi1 : i < xs.length := by rw [hlen]; exact hi
    rw [Heap.read_of_lookup _ _ _ i hNew, Heap.read_of_lookup _ _ _ i hSrc,
      Heap.read_of_lookup _ _ _ i hxb]
    simp [hi1]
  · rw [hpa]
    exact Heap.lookup_release_push_old w.heap pa xs hpalt
  · have := Heap.releasedCount_release w.heap pa ys hya
    simp only [Heap.releasedCount] at this ⊢
    simp [this]

/-- Witness of C5: `A = B` in the state after `Vitals A; Vitals B;`. -/
theorem copy_assignment_replaces_witness :
    twoWindows.objs[0]? = some { Vitals.defaults with irBuffer := some 0 } ∧
    twoWindows.objs[1]? = some { Vitals.defaults with irBuffer := some 1 } ∧
    (0 : Nat) ≠ 1 ∧
    twoWindows.heap.lookup (some 0) = some (List.replicate WINDOW_SIZE 0) ∧
    twoWindows.heap.lookup (some 1) = some (List.replicate WINDOW_SIZE 0) ∧
    ∃ w1 A1 zs, World.assign twoWindows true (fun _ => 99) 0 1 = .done (w1, 0) ∧
      w1.objs[0]? = some A1 ∧
      w1.objs[1]? = some { Vitals.defaults with irBuffer := some 1 } ∧
      A1.irBuffer = some twoWindows.heap.allocCount ∧
      w1.heap.allocCount = twoWindows.heap.allocCount + 1 ∧
      w1.heap.lookup A1.irBuffer = some zs ∧ zs.length = WINDOW_SIZE ∧
      (∀ i, i < WINDOW_SIZE →
        w1.heap.read A1.irBuffer i = w1.heap.read (some 1) i ∧
        w1.heap.read (some 1) i = twoWindows.heap.read (some 1) i ∧
        (w1.heap.read A1.irBuffer i).isSome = true) ∧
      A1.irValue = 0 ∧ A1.bpm = 0 ∧ A1.avgBpm = 0 ∧ A1.isValid = false ∧
      A1.bufferIndex = 0 ∧ A1.bufferFull = false ∧ A1.lastSampleTime = 0 ∧
      w1.heap.lookup (some 0) = none ∧
      w1.heap.releasedCount = twoWindows.heap.releasedCount + 1 :=
  ⟨rfl, rfl, by decide, rfl, rfl,
    copy_assignment_replaces twoWindows (fun _ => 99) 0 1
      { Vitals.defaults with irBuffer := some 0 } { Vitals.defaults with irBuffer := some 1 }
      0 (List.replicate WINDOW_SIZE 0) (List.replicate WINDOW_SIZE 0)
      rfl rfl (by decide) rfl rfl rfl (List.length_replicate _ _) (by decide)⟩

/-- C6, evaluated: in the state after `Vitals A; Vitals B;`, the assignment
`A = B` whose allocation is refused ends by `std::bad_alloc` with `A.irBuffer`
still holding the address of the array it has just released. That pointer is
neither null nor a live array: it dangles. -/
theorem copy_assignment_dangles_on_bad_alloc :
    World.run World.empty [.construct true, .construct true] = .done twoWindows ∧
    ∃ w1 A1, World.assign twoWindows false (fun _ => 99) 0 1 = .thrown w1 ∧
      w1.objs[0]? = some A1 ∧ A1.irBuffer = some 0 ∧
      twoWindows.heap.lookup A1.irBuffer = some (List.replicate WINDOW_SIZE 0) ∧
      w1.heap.lookup A1.irBuffer = none ∧
      ¬ (A1.irBuffer = none ∨
          ∃ xs, w1.heap.lookup A1.irBuffer = some xs ∧ xs.length = WINDOW_SIZE) := by
  refine ⟨rfl, ⟨⟨[none, some (List.replicate WINDOW_SIZE 0)]⟩,
      [{ Vitals.defaults with irBuffer := some 0 },
        { Vitals.defaults with irBuffer := some 1 }]⟩,
    { Vitals.defaults with irBuffer := some 0 }, rfl, rfl, rfl, rfl, rfl, ?_⟩
  rintro (h | ⟨xs, h, _⟩)
  · exact Option.noConfusion h
  · exact Option.noConfusion h

/-- C7: exactly one buffer is live per instance. Every sequence of default
constructions, copy constructions and copy assignments whose operands exist and
whose allocations are granted runs to completion from the empty program state,
and afterwards every object holds a live array of `WINDOW_SIZE` elements, no two
objects hold the same array, every live array is held by some object (so every
array an assigned-to object held before has been released), and the number of
live arrays equals the number of objects. -/
theorem one_live_buffer_per_instance (ops : List Op)
    (hadm : Op.admissible 0 ops = true) :
    ∃ w, World.empty.run ops = .done w ∧
      (∀ (k : Nat) (s : Vitals), w.objs[k]? = some s →
        ∃ xs, w.heap.lookup s.irBuffer = some xs ∧ xs.length = WINDOW_SIZE) ∧
      (∀ (j k : Nat) (s t : Vitals), w.objs[j]? = some s → w.objs[k]? = some t →
        s.irBuffer = t.irBuffer → j = k) ∧
      (∀ (b : Nat) (xs : List F32), w.heap.lookup (some b) = some xs →
        ∃ (k : Nat) (s : Vitals), w.objs[k]? = some s ∧ s.irBuffer = some b) ∧
      w.heap.liveCount = w.objs.length := by
  obtain ⟨w, hrun, hw⟩ := World.run_inv ops World.empty World.Inv.empty hadm
  exact ⟨w, hrun, hw.live, hw.inj, hw.owned, hw.count⟩

/-- Witness of C7 on `Vitals A; Vitals B; Vitals C; A = B; A = C;`. -/
theorem one_live_buffer_per_instance_witness :
    Op.admissible 0 repeatedAssignment = true ∧
    ∃ w, World.empty.run repeatedAssignment = .done w ∧
      (∀ (k : Nat) (s : Vitals), w.objs[k]? = some s →
        ∃ xs, w.heap.lookup s.irBuffer = some xs ∧ xs.length = WINDOW_SIZE) ∧
      (∀ (j k : Nat) (s t : Vitals), w.objs[j]? = some s → w.objs[k]? = some t →
        s.irBuffer = t.irBuffer → j = k) ∧
      (∀ (b : Nat) (xs : List F32), w.heap.lookup (some b) = some xs →
        ∃ (k : Nat) (s : Vitals), w.objs[k]? = some s ∧ s.irBuffer = some b) ∧
      w.heap.liveCount = w.objs.length :=
  ⟨by decide, one_live_buffer_per_instance repeatedAssignment (by decide)⟩

/-- C9: the state invariant of `Vitals` (the buffer is a live array of exactly
`WINDOW_SIZE` elements and `0 <= bufferIndex < WINDOW_SIZE`) holds of every
object reached by default construction followed by any sequence of copy
constructions and copy assignments; copy construction from a source satisfying
it yields a result satisfying it; and copy assignment from a source satisfying
it, onto a target that is the source itself, or holds no array, or holds a live
array of its own, leaves the target satisfying it. -/
theorem state_invariant_preserved :
    (∀ ops : List Op, Op.admissible 0 ops = true →
      ∃ w, World.empty.run ops = .done w ∧
        ∀ (k : Nat) (s : Vitals), w.objs[k]? = some s → Vitals.Valid w.heap s) ∧
    (∀ (h : Heap) (junk : Nat → F32) (A : Vitals), Vitals.Valid h A →
      ∃ h1 B, Vitals.copyCtor h true junk A = .done (h1, B) ∧
        Vitals.Valid h1 B ∧ Vitals.Valid h1 A) ∧
    (∀ (w : World) (junk : Nat → F32) (a b : Nat) (A B : Vitals),
      w.objs[a]? = some A → w.objs[b]? = some B → Vitals.Valid w.heap B →
      (a ≠ b → A.irBuffer = none ∨
        ((∃ ys, w.heap.lookup A.irBuffer = some ys) ∧ A.irBuffer ≠ B.irBuffer)) →
      ∃ w1 A1, World.assign w true junk a b = .done (w1, a) ∧
        w1.objs[a]? = some A1 ∧ Vitals.Valid w1.heap A1) := by
  refine ⟨?_, ?_, ?_⟩
  · intro ops hadm
    obtain ⟨w, hrun, hw⟩ := World.run_inv ops World.empty World.Inv.empty hadm
    exact ⟨w, hrun, fun k s hk => ⟨hw.live k s hk, hw.index k s hk⟩⟩
  · rintro h junk A ⟨⟨xs, hx, hlen⟩, hidx⟩
    exact ⟨_, _, Vitals.copyCtor_done h junk A xs hx hlen,
      ⟨⟨xs, Heap.lookup_push_self h xs, hlen⟩, hidx⟩,
      ⟨⟨xs, Heap.lookup_push_of_live h _ _ xs hx, hlen⟩, hidx⟩⟩
  · rintro w junk a b A B hA hB ⟨⟨xs, hx, hlen⟩, hidx⟩ htgt
    have halt : a < w.objs.length := (List.getElem?_eq_some.mp hA).1
    by_cases hab : a = b
    · subst hab
      have hAB : A = B := Option.some.inj (hA.symm.trans hB)
      subst hAB
      exact ⟨w, A, World.assign_self w true junk a halt, hA, ⟨⟨xs, hx, hlen⟩, hidx⟩⟩
    · rcases htgt hab with hnull | ⟨⟨ys, hy⟩, hne⟩
      · refine ⟨⟨⟨w.heap.blocks ++ [some xs]⟩,
            w.objs.set a { B with irBuffer := some w.heap.blocks.length }⟩,
          { B with irBuffer := some w.heap.blocks.length }, ?_, ?_, ?_⟩
        · simp only [World.assign, hA, hB, ne_eq, hab, not_false_eq_true, if_true,
            Vitals.assignFrom_done_null w.heap junk A B xs hnull hx hlen]
        · simp [halt]
        · exact ⟨⟨xs, Heap.lookup_push_self w.heap xs, hlen⟩, hidx⟩
      · cases hpa : A.irBuffer with
        | none => rw [hpa] at hy; simp [Heap.lookup] at hy
        | some pa =>
          rw [hpa] at hy
          have hown : B.irBuffer ≠ some pa := by rw [← hpa]; exact Ne.symm hne
          refine ⟨_, { B with irBuffer := some w.heap.blocks.length },
            World.assign_done w junk a b A B pa ys xs hA hB hab hpa hy hx hlen hown,
            ?_, ?_⟩
          · simp [halt]
          · exact ⟨⟨xs, Heap.lookup_release_push_self w.heap pa xs, hlen⟩, hidx⟩

/-- Witness of C9: the reachable-state part on `A = B; A = C`, the
copy-construction part on the sample window, and the copy-assignment part on
`A = B` after `Vitals A; Vitals B;`. -/
theorem state_invariant_preserved_witness :
    (Op.admissible 0 repeatedAssignment = true ∧
      ∃ w, World.empty.run repeatedAssignment = .done w ∧
        ∀ (k : Nat) (s : Vitals), w.objs[k]? = some s → Vitals.Valid w.heap s) ∧
    (Vitals.Valid rampHeap rampVitals ∧
      ∃ h1 B, Vitals.copyCtor rampHeap true (fun _ => 99) rampVitals = .done (h1, B) ∧
        Vitals.Valid h1 B ∧ Vitals.Valid h1 rampVitals) ∧
    (twoWindows.objs[0]? = some { Vitals.defaults with irBuffer := some 0 } ∧
      twoWindows.objs[1]? = some { Vitals.defaults with irBuffer := some 1 } ∧
      Vitals.Valid twoWindows.heap { Vitals.defaults with irBuffer := some 1 } ∧
      ∃ w1 A1, World.assign twoWindows true (fun _ => 99) 0 1 = .done (w1, 0) ∧
        w1.objs[0]? = some A1 ∧ Vitals.Valid w1.heap A1) :=
  have hv : Vitals.Valid rampHeap rampVitals :=
    ⟨⟨List.range WINDOW_SIZE, rfl, List.length_range _⟩, by decide, by decide⟩
  have hb : Vitals.Valid twoWindows.heap { Vitals.defaults with irBuffer := some 1 } :=
    ⟨⟨List.replicate WINDOW_SIZE 0, rfl, List.length_replicate _ _⟩, by decide, by decide⟩
  ⟨⟨by decide, state_invariant_preserved.1 repeatedAssignment (by decide)⟩,
    ⟨hv, state_invariant_preserved.2.1 rampHeap (fun _ => 99) rampVitals hv⟩,
    ⟨rfl, rfl, hb,
      state_invariant_preserved.2.2 twoWindows (fun _ => 99) 0 1
        { Vitals.defaults with irBuffer := some 0 }
        { Vitals.defaults with irBuffer := some 1 } rfl rfl hb
        (fun _ => Or.inr ⟨⟨List.replicate WINDOW_SIZE 0, rfl⟩, by decide⟩)⟩⟩

/-- C10: the string members of the telemetry payload have usable capacities
(declared array size less one terminator) `device_id` 49, `device_name` 49,
`device_model` 49, `os_version` 19, `timestamp` 24, `source` 19, `context` 19;
`PostData` has exactly two members, one `DeviceInfo` and one `HeartRateReading`,
both held by value; and `bpm` is an `int`. -/
theorem payload_field_capacities :
    usableChars DeviceInfo "device_id" = some 49 ∧
    usableChars DeviceInfo "device_name" = some 49 ∧
    usableChars DeviceInfo "device_model" = some 49 ∧
    usableChars DeviceInfo "os_version" = some 19 ∧
    usableChars HeartRateReading "timestamp" = some 24 ∧
    usableChars HeartRateReading "source" = some 19 ∧
    usableChars HeartRateReading "context" = some 19 ∧
    PostData.length = 2 ∧
    containedByValue PostData "DeviceInfo" = 1 ∧
    containedByValue PostData "HeartRateReading" = 1 ∧
    memberType PostData "device_info" = some (.record "DeviceInfo") ∧
    memberType PostData "heart_rate" = some (.record "HeartRateReading") ∧
    memberType HeartRateReading "bpm" = some .int := by
  decide

end Eon
